import Mathlib

/-!
Verification development for the EvoMemory core of the repository
`antconsales/antonio-gemma3-evo-q4`.

The embedding below is a shallow model of the Python sources:

* `src/core/evomemory/schema.py`       — SQLite tables, modelled as lists of rows
* `src/core/evomemory/neuron_store.py` — `Neuron`, `NeuronStore`
* `src/core/evomemory/rag_lite.py`     — `BM25`, `RAGLite`
* `src/core/inference/confidence.py`   — `ConfidenceScorer`
* `src/core/growth/rule_generator.py`  — `Rule`, `RuleGenerator`

Modelling conventions:
* Python floats are modelled as exact rationals (`ℚ`); machine rounding is
  not relevant to any statement proved here (all constants are small decimal
  literals and all comparisons hold with slack, except where noted).
* SQLite tables are lists of rows in insertion order; `AUTOINCREMENT` ids
  are modelled by a `nextId` counter held by the database state, together
  with the invariant that every stored id is below `nextId`.
* `timestamp` columns are modelled as integers (time in days); the SQL
  expression `datetime('now', '-K days')` becomes `now - K`.
* `ORDER BY timestamp DESC` over rows with distinct, increasing timestamps
  is modelled as `reverse` of insertion order.
* `hashlib.md5` (used only to fill the `context_hash` field) is an external
  library call; the field is carried around as opaque string data and no
  claim below depends on its value.
* `math.log` is modelled as `Real.log`; definitions that depend on it are
  marked `noncomputable` but every hypothesis a witness must discharge is
  decidable.
-/

/-! ## Data model (`schema.py`, `neuron_store.py`, `rule_generator.py`) -/

/-- In-memory neuron object (`Neuron` in `neuron_store.py`).  `id` is
`Optional[int]` in Python.  `_compute_hash` calls `hashlib.md5`, an external
library; the `context_hash` field is modelled as plain data. -/
structure Neuron where
  id : Option ℕ
  input_text : String
  idea : Option String
  output_text : String
  mood : String
  confidence : ℚ
  skill_id : Option String
  context_hash : String
  timestamp : ℤ
  user_feedback : ℤ
deriving DecidableEq, Repr

/-- A row of the `neurons` table (`schema.py`). -/
structure NeuronRow where
  id : ℕ
  input_text : String
  idea : Option String
  output_text : String
  mood : String
  confidence : ℚ
  user_feedback : ℤ
  context_hash : String
  skill_id : Option String
  timestamp : ℤ
deriving DecidableEq, Repr

/-- A mined rule (`Rule` in `rule_generator.py`); also stands for a row of
the `rules` table, whose extra columns (`id`, `created_at`, `applied_count`)
no claim touches. -/
structure Rule where
  rule_text : String
  trigger_pattern : String
  confidence_threshold : ℚ
  priority : ℕ
  enabled : Bool
deriving DecidableEq, Repr

/-- Database state (`EvoMemoryDB` in `schema.py`): the `neurons` and `rules`
tables, the autoincrement counter for `neurons.id`, and the current time
(`CURRENT_TIMESTAMP` / `datetime('now')`), in days. -/
structure DB where
  rows : List NeuronRow
  rules : List Rule
  nextId : ℕ
  now : ℤ
deriving DecidableEq, Repr

/-! ## NeuronStore (`neuron_store.py`) -/

/-- `NeuronStore.save_neuron`: INSERT the neuron's fields into `neurons`;
`id` is assigned by `AUTOINCREMENT`, `timestamp` defaults to
`CURRENT_TIMESTAMP`.  Returns `cursor.lastrowid` and the new state.
The caller-supplied `confidence` is inserted as-is. -/
def save_neuron (db : DB) (n : Neuron) : ℕ × DB :=
  let row : NeuronRow :=
    { id := db.nextId
      input_text := n.input_text
      idea := n.idea
      output_text := n.output_text
      mood := n.mood
      confidence := n.confidence
      user_feedback := n.user_feedback
      context_hash := n.context_hash
      skill_id := n.skill_id
      timestamp := db.now }
  (db.nextId, { db with rows := db.rows ++ [row], nextId := db.nextId + 1 })

/-- `NeuronStore._row_to_neuron`: rebuild a `Neuron` from a table row. -/
def row_to_neuron (r : NeuronRow) : Neuron :=
  { id := some r.id
    input_text := r.input_text
    idea := r.idea
    output_text := r.output_text
    mood := r.mood
    confidence := r.confidence
    skill_id := r.skill_id
    context_hash := r.context_hash
    timestamp := r.timestamp
    user_feedback := r.user_feedback }

/-- `NeuronStore.get_neuron`: `SELECT * FROM neurons WHERE id = ?`;
`id` is the primary key, so the first (unique) match is returned. -/
def get_neuron (db : DB) (i : ℕ) : Option Neuron :=
  (db.rows.find? (fun r => r.id == i)).map row_to_neuron

/-- `NeuronStore.get_recent_neurons` without a skill filter:
`SELECT * FROM neurons ORDER BY timestamp DESC LIMIT ?`.  Rows are stored in
insertion order with increasing timestamps, so this is reverse order. -/
def get_recent_neurons (db : DB) (limit : ℕ) : List Neuron :=
  ((db.rows.reverse).take limit).map row_to_neuron

/-- The WHERE clause of `NeuronStore.prune_old_neurons`:
`timestamp < datetime('now', '-keep_days days') AND confidence < ? AND
user_feedback <= 0`. -/
def prune_cond (now : ℤ) (keep_days : ℤ) (min_confidence : ℚ) (r : NeuronRow) : Prop :=
  r.timestamp < now - keep_days ∧ r.confidence < min_confidence ∧ r.user_feedback ≤ 0

instance (now keep_days : ℤ) (mc : ℚ) (r : NeuronRow) :
    Decidable (prune_cond now keep_days mc r) :=
  inferInstanceAs (Decidable (_ ∧ _ ∧ _))

/-- `NeuronStore.prune_old_neurons`: DELETE the rows matching `prune_cond`,
return `cursor.rowcount` (the number of deleted rows) and the new state. -/
def prune_old_neurons (db : DB) (keep_days : ℤ) (min_confidence : ℚ) : ℕ × DB :=
  let kept := db.rows.filter (fun r => ¬ prune_cond db.now keep_days min_confidence r)
  let deleted := (db.rows.filter (fun r => prune_cond db.now keep_days min_confidence r)).length
  (deleted, { db with rows := kept })

/-- A fresh database (`EvoMemoryDB.init_db` on a new file): empty tables.
SQLite `AUTOINCREMENT` starts at 1. -/
def emptyDB : DB := { rows := [], rules := [], nextId := 1, now := 0 }

/-! ### Concrete data for claim C1 -/

/-- A concrete neuron whose caller-supplied confidence is 1.5, outside
`[0, 1]`. -/
def c1Neuron : Neuron :=
  { id := none
    input_text := "test input"
    idea := none
    output_text := "test output"
    mood := "neutral"
    confidence := 3/2
    skill_id := none
    context_hash := "00000000"
    timestamp := 0
    user_feedback := 0 }

/-- C5, witness: a store holding one stale low-confidence row with positive
feedback and one stale low-confidence row with zero feedback; pruning
deletes exactly the latter. -/
def c5Row1 : NeuronRow :=
  { id := 1, input_text := "a", idea := none, output_text := "b",
    mood := "positive", confidence := 1/10, user_feedback := 1,
    context_hash := "h1", skill_id := none, timestamp := -100 }

def c5Row2 : NeuronRow :=
  { id := 2, input_text := "c", idea := none, output_text := "d",
    mood := "neutral", confidence := 1/10, user_feedback := 0,
    context_hash := "h2", skill_id := none, timestamp := -100 }

def c5DB : DB := { rows := [c5Row1, c5Row2], rules := [], nextId := 3, now := 0 }

/-! ## ConfidenceScorer (`confidence.py`)

The two pattern lists are compiled into one alternation regex each, with
`re.IGNORECASE`; every alternative is a word-bounded literal phrase
(`\b...\b`).  `findall` scans left to right, returns non-overlapping
matches, and at each position tries the alternatives in list order.  That
scan is embedded directly below.  Patterns are stored lower-cased (the
Python source writes two of them with a capital `I`; under `IGNORECASE`
this is equivalent). -/

/-- ASCII apostrophe, kept out of string literals. -/
def apos : String := String.singleton (Char.ofNat 39)

/-- `ConfidenceScorer.UNCERTAINTY_PATTERNS`, as literal phrases. -/
def UNCERTAINTY_PATTERNS : List String :=
  ["non sono sicuro", "non so", "forse", "probabilmente",
   "potrebbe essere", "possibilmente",
   "i" ++ apos ++ "m not sure", "i don" ++ apos ++ "t know",
   "maybe", "probably", "might be", "could be"]

/-- `ConfidenceScorer.CERTAINTY_PATTERNS`, as literal phrases. -/
def CERTAINTY_PATTERNS : List String :=
  ["sicuramente", "conferma", "essenzialmente", "definitivamente",
   "certainly", "definitely", "clearly", "obviously"]

/-- Python regex `\w` (Unicode): letters, digits, underscore.  The only
non-ASCII characters occurring in this code base are accented letters, so
any non-ASCII character is treated as a word character. -/
def isWordChar (c : Char) : Bool :=
  c.isAlphanum || c == '_' || decide (128 ≤ c.toNat)

/-- `\b` holds before the match: start of text, or previous char not a word
character (every pattern starts with a word character, so the other half of
the boundary condition is implied by the literal match). -/
def boundaryOk : Option Char → Bool
  | none => true
  | some c => !isWordChar c

/-- Case-insensitive "starts with" of a lower-case pattern. -/
def matchesAt : List Char → List Char → Bool
  | [], _ => true
  | _ :: _, [] => false
  | p :: ps, c :: cs => c.toLower == p && matchesAt ps cs

/-- `\b` holds after the match: end of text or next char not a word
character. -/
def endBoundaryOk : List Char → Bool
  | [] => true
  | c :: _ => !isWordChar c

/-- First alternative of the alternation that matches at this position
(Python alternation is first-match, not longest-match). -/
def firstMatch (pats : List (List Char)) (cs : List Char) : Option (List Char) :=
  pats.find? (fun p => matchesAt p cs && endBoundaryOk (cs.drop p.length))

/-- The `findall` scan: fuel-indexed left-to-right scan counting
non-overlapping matches; `prev` is the character before the current
position (for `\b`).  Fuel `length + 1` always suffices because every step
consumes at least one character. -/
def scanCount (pats : List (List Char)) : ℕ → Option Char → List Char → ℕ
  | 0, _, _ => 0
  | _ + 1, _, [] => 0
  | fuel + 1, prev, c :: cs =>
    if boundaryOk prev then
      match firstMatch pats (c :: cs) with
      | some p =>
          1 + scanCount pats fuel (((c :: cs).take p.length).getLast?) ((c :: cs).drop p.length)
      | none => scanCount pats fuel (some c) cs
    else scanCount pats fuel (some c) cs

/-- `len(regex.findall(text))` for an alternation of word-bounded literal
phrases under `IGNORECASE`. -/
def count_matches (patterns : List String) (text : String) : ℕ :=
  scanCount (patterns.map String.data) (text.data.length + 1) none text.data

/-- Python `str.lower()`: lower-case every character.  (`Char.toLower`
covers the ASCII range; every upper-case character appearing in the inputs
of the claims below is ASCII.) -/
def lowerStr (s : String) : String := ⟨s.data.map Char.toLower⟩

/-- Python `str.split()` at the character level: skip whitespace runs,
collect maximal runs of non-whitespace. -/
def wordsOf (cs : List Char) : List (List Char) :=
  match cs with
  | [] => []
  | c :: cs' =>
    if c.isWhitespace then wordsOf cs'
    else
      (c :: cs'.takeWhile (fun x => !x.isWhitespace))
        :: wordsOf (cs'.dropWhile (fun x => !x.isWhitespace))
termination_by cs.length
decreasing_by
  · simp
  · simp only [List.length_cons]
    exact Nat.lt_succ_of_le ((List.dropWhile_suffix _).sublist.length_le)

/-- Python `str.split()`: split on whitespace runs, no empty tokens. -/
def splitWords (s : String) : List String :=
  (wordsOf s.data).map (fun cs => String.mk cs)

/-- Optional generation stats (`context` dict in `ConfidenceScorer.score`);
`context.get(key, 0)` is a field read here.  `None` (or an empty dict,
which Python treats the same) is `none`. -/
structure ScoreContext where
  prompt_tokens : ℕ
  tokens_per_second : ℚ
deriving DecidableEq, Repr

/-- `ConfidenceScorer.score`: additive heuristic starting at 0.5, clamped
to `[0,1]` at the end; returns `(confidence, reasoning)`. -/
def score (output_text : String) (context : Option ScoreContext) : ℚ × String :=
  let confidence : ℚ := 1/2
  let reasons : List String := []
  let output_len := output_text.trim.length
  let confidence := if output_len < 10 then confidence - 2/10
    else if output_len > 50 then confidence + 1/10 else confidence
  let reasons := if output_len < 10 then reasons ++ ["output troppo breve"]
    else if output_len > 50 then reasons ++ ["risposta dettagliata"] else reasons
  let uncertainty_matches := count_matches UNCERTAINTY_PATTERNS output_text
  let confidence := if uncertainty_matches > 0
    then confidence - (15/100) * uncertainty_matches else confidence
  let reasons := if uncertainty_matches > 0
    then reasons ++ ["trovate " ++ toString uncertainty_matches ++ " espressioni di dubbio"]
    else reasons
  let certainty_matches := count_matches CERTAINTY_PATTERNS output_text
  let confidence := if certainty_matches > 0
    then confidence + (1/10) * certainty_matches else confidence
  let reasons := if certainty_matches > 0
    then reasons ++ ["trovate " ++ toString certainty_matches ++ " espressioni di certezza"]
    else reasons
  let question_marks := output_text.data.count '?'
  let confidence := if question_marks > 1 then confidence - 1/10 else confidence
  let reasons := if question_marks > 1 then reasons ++ ["risposta contiene domande"] else reasons
  let words := splitWords (lowerStr output_text)
  let confidence :=
    if words.length > 10 ∧ ((words.dedup.length : ℚ) / words.length < 6/10)
    then confidence - 15/100 else confidence
  let reasons :=
    if words.length > 10 ∧ ((words.dedup.length : ℚ) / words.length < 6/10)
    then reasons ++ ["troppe ripetizioni"] else reasons
  let confidence := match context with
    | some ctx => if ctx.prompt_tokens > 500 ∧ output_len < 50
        then confidence - 1/10 else confidence
    | none => confidence
  let reasons := match context with
    | some ctx => if ctx.prompt_tokens > 500 ∧ output_len < 50
        then reasons ++ ["risposta troppo breve rispetto al prompt"] else reasons
    | none => reasons
  let confidence := match context with
    | some ctx => if ctx.tokens_per_second > 5 then confidence + 5/100 else confidence
    | none => confidence
  let reasons := match context with
    | some ctx => if ctx.tokens_per_second > 5 then reasons ++ ["generazione fluida"] else reasons
    | none => reasons
  let confidence := max 0 (min 1 confidence)
  let reasoning := if reasons.isEmpty then "valutazione standard"
    else String.intercalate "; " reasons
  (confidence, reasoning)

/-! ### Concrete data for claim C9 -/

/-- The text of spec scenario 3. -/
def c9Text : String := "Certamente! Il comando corretto è gpio.write(17, HIGH)."

/-! ## RuleGenerator (`rule_generator.py`)

Python `Counter` and `defaultdict` preserve insertion order (first
occurrence); both are modelled as association lists kept in insertion
order.  `Counter.most_common(n)` returns the items sorted by count
descending, ties in first-encountered order — a stable descending sort. -/

/-- One `Counter.update` step for a single token. -/
def bump : List (String × ℕ) → String → List (String × ℕ)
  | [], t => [(t, 1)]
  | (s, c) :: rest, t => if s = t then (s, c + 1) :: rest else (s, c) :: bump rest t

/-- `Counter.update(words)`. -/
def counterUpdate (m : List (String × ℕ)) (ws : List String) : List (String × ℕ) :=
  ws.foldl bump m

/-- `Counter.most_common(n)`: stable descending sort by count, first `n`. -/
def mostCommon (m : List (String × ℕ)) (n : ℕ) : List (String × ℕ) :=
  (m.mergeSort (fun a b => b.2 ≤ a.2)).take n

/-- `defaultdict(list)` bucket append, keeping first-occurrence key order. -/
def addToGroup : List (String × List Neuron) → String → Neuron → List (String × List Neuron)
  | [], k, n => [(k, [n])]
  | (s, ns) :: rest, k, n =>
    if s = k then (s, ns ++ [n]) :: rest else (s, ns) :: addToGroup rest k n

/-- Result of `RuleGenerator.analyze_patterns`. -/
structure AnalyzedPatterns where
  by_skill : List (String × List Neuron)
  by_mood : List (String × List Neuron)
  by_keywords : List (String × List Neuron)

/-- `RuleGenerator.analyze_patterns`: group the most recent `limit` neurons
by `skill_id` (when present), by `mood`, and by up to the first 3 keywords
(`len(w) > 3`) of each input. -/
def analyze_patterns (db : DB) (limit : ℕ) : AnalyzedPatterns :=
  let neurons := get_recent_neurons db limit
  { by_skill := neurons.foldl (fun m n =>
      match n.skill_id with
      | some sk => addToGroup m sk n
      | none => m) []
    by_mood := neurons.foldl (fun m n => addToGroup m n.mood n) []
    by_keywords := neurons.foldl (fun m n =>
      (((splitWords (lowerStr n.input_text)).filter (fun w => w.length > 3)).take 3).foldl
        (fun m kw => addToGroup m kw n) m) [] }

/-- Rule emitted by heuristic 1 (skill confidence). -/
def skill_rule (sk : String) (avg : ℚ) : Rule :=
  { rule_text := "Use high confidence for " ++ sk ++ " tasks"
    trigger_pattern := "skill_id:" ++ sk
    confidence_threshold := avg
    priority := 2
    enabled := true }

/-- Rule emitted by heuristic 2 (negative-feedback word avoidance). -/
def avoid_rule (w : String) : Rule :=
  { rule_text := "Avoid using " ++ apos ++ w ++ apos
      ++ " in responses (negative feedback pattern)"
    trigger_pattern := "avoid_word:" ++ w
    confidence_threshold := 3/10
    priority := 3
    enabled := true }

/-- Rule emitted by heuristic 3 (high-confidence keyword). -/
def keyword_rule (k : String) : Rule :=
  { rule_text := "High confidence pattern detected for " ++ apos ++ k ++ apos ++ " queries"
    trigger_pattern := "keyword:" ++ k
    confidence_threshold := 8/10
    priority := 1
    enabled := true }

/-- Rule emitted by heuristic 4 (low-confidence clarification). -/
def clarify_rule (t : String) : Rule :=
  { rule_text := "Ask clarification for " ++ apos ++ t ++ apos
      ++ " topics (low confidence pattern)"
    trigger_pattern := "clarify:" ++ t
    confidence_threshold := 4/10
    priority := 2
    enabled := true }

/-- Heuristic 1 of `generate_rules`: skill groups of size at least
`min_occurrences` whose average confidence exceeds 0.7. -/
def skill_rules (db : DB) (min_occurrences : ℕ) : List Rule :=
  (analyze_patterns db 200).by_skill.foldl (fun rules g =>
    if min_occurrences ≤ g.2.length then
      if (7:ℚ)/10 < (g.2.map Neuron.confidence).sum / (g.2.length : ℚ)
      then rules ++ [skill_rule g.1 ((g.2.map Neuron.confidence).sum / (g.2.length : ℚ))]
      else rules
    else rules) []

/-- The neurons heuristic 2 looks at: among the last 100, those with
negative user feedback. -/
def negative_neurons (db : DB) : List Neuron :=
  (get_recent_neurons db 100).filter (fun n => n.user_feedback < 0)

/-- Heuristic 2's word counter over the negative neurons' output texts. -/
def neg_word_counter (db : DB) : List (String × ℕ) :=
  (negative_neurons db).foldl (fun m n => counterUpdate m (splitWords (lowerStr n.output_text))) []

/-- The fold step of heuristic 2: emit an avoid-rule for a counted word if
its count is at least 3 and it is longer than 3 characters. -/
def emitAvoid (rules : List Rule) (wc : String × ℕ) : List Rule :=
  if 3 ≤ wc.2 ∧ 3 < wc.1.length then rules ++ [avoid_rule wc.1] else rules

/-- Heuristic 2 of `generate_rules` (negative-feedback avoidance). -/
def negative_feedback_rules (db : DB) : List Rule :=
  if 3 ≤ (negative_neurons db).length then
    (mostCommon (neg_word_counter db) 5).foldl emitAvoid []
  else []

/-- Heuristic 3 of `generate_rules` (high-confidence keywords). -/
def high_confidence_rules (db : DB) : List Rule :=
  let hc := (get_recent_neurons db 100).filter (fun n => (8:ℚ)/10 < n.confidence)
  if 5 ≤ hc.length then
    let keywords := hc.foldl (fun m n =>
      counterUpdate m ((splitWords (lowerStr n.input_text)).filter (fun w => 3 < w.length))) []
    (mostCommon keywords 3).foldl (fun rules kc =>
      if 3 ≤ kc.2 then rules ++ [keyword_rule kc.1] else rules) []
  else []

/-- Heuristic 4 of `generate_rules` (low-confidence clarification). -/
def low_confidence_rules (db : DB) : List Rule :=
  let lc := (get_recent_neurons db 50).filter (fun n => n.confidence < (4:ℚ)/10)
  if 5 ≤ lc.length then
    let topics := lc.foldl (fun m n =>
      counterUpdate m (((splitWords (lowerStr n.input_text)).take 5).filter (fun w => 3 < w.length))) []
    (mostCommon topics 2).foldl (fun rules tc =>
      if 3 ≤ tc.2 then rules ++ [clarify_rule tc.1] else rules) []
  else []

/-- `RuleGenerator.generate_rules`: the four heuristics append to one list
in order. -/
def generate_rules (db : DB) (min_occurrences : ℕ) : List Rule :=
  skill_rules db min_occurrences ++ negative_feedback_rules db
    ++ high_confidence_rules db ++ low_confidence_rules db

/-- The insertion loop of `RuleGenerator.save_rules_to_db` over the `rules`
table: each rule is inserted unless a row with identical `rule_text`
already exists (inserts are visible to the duplicate check for the
following rules, since they run on the same connection). -/
def save_rules_fold (table : List Rule) (saved : ℕ) : List Rule → List Rule × ℕ
  | [] => (table, saved)
  | r :: rest =>
    if (table.find? (fun ex => ex.rule_text == r.rule_text)).isSome
    then save_rules_fold table saved rest
    else save_rules_fold (table ++ [r]) (saved + 1) rest

/-- `RuleGenerator.save_rules_to_db`: run the insertion loop, return the
new state and the number of rules actually inserted. -/
def save_rules_to_db (db : DB) (rules : List Rule) : DB × ℕ :=
  let res := save_rules_fold db.rules 0 rules
  ({ db with rules := res.1 }, res.2)

/-- `EvoMemoryDB.get_stats()["neurons"]`: `SELECT COUNT(*) FROM neurons`. -/
def stats_neurons (db : DB) : ℕ := db.rows.length

/-- Result dict of `RuleGenerator.auto_evolve`. -/
structure EvolveResult where
  neurons_analyzed : ℕ
  rules_generated : ℕ
  rules_saved : ℕ
  message : String
deriving DecidableEq, Repr

/-- `RuleGenerator.auto_evolve`: short-circuit when the stored neuron count
is below `min_neurons`; otherwise generate rules (with
`min_occurrences=3`), save them to the DB, and export a JSON side artifact
(external file I/O, no database effect, elided here). -/
def auto_evolve (db : DB) (min_neurons : ℕ) : EvolveResult × DB :=
  let count := stats_neurons db
  if count < min_neurons then
    ({ neurons_analyzed := count, rules_generated := 0, rules_saved := 0,
       message := "Not enough neurons (" ++ toString count ++ " < "
         ++ toString min_neurons ++ ")" }, db)
  else
    let new_rules := generate_rules db 3
    let res := save_rules_to_db db new_rules
    ({ neurons_analyzed := count, rules_generated := new_rules.length,
       rules_saved := res.2,
       message := "✓ Generated " ++ toString new_rules.length ++ " rules, saved "
         ++ toString res.2 ++ " new ones" }, res.1)

/-- The concrete neuron population for C2: three neurons with negative
feedback whose outputs all read "wifi down" — both words have exactly 4
characters. -/
def c2Row (i : ℕ) : NeuronRow :=
  { id := i, input_text := "input", idea := none, output_text := "wifi down",
    mood := "negative", confidence := 1/2, user_feedback := -1,
    context_hash := "h", skill_id := none, timestamp := (i : ℤ) }

def c2DB : DB := { rows := [c2Row 1, c2Row 2, c2Row 3], rules := [], nextId := 4, now := 10 }

/-! ## RAG-Lite (`rag_lite.py`)

`BM25.fit` is computable (tokenisation, document frequencies, average
length over `ℚ`); only the idf values and scores, which use `math.log`
(modelled as `Real.log`), are noncomputable. -/

/-! ### BM25 -/

/-- State of the `BM25` object (`rag_lite.py`).  `idf_cache` always holds
`idf(df)` for exactly the keys of `doc_freqs` (recomputed for all
accumulated terms at the end of every `fit`), so it is represented by
`doc_freqs` together with the derived function `BM25.idf`. -/
structure BM25 where
  k1 : ℚ
  b : ℚ
  doc_count : ℕ
  avg_doc_len : ℚ
  doc_freqs : List (String × ℕ)
deriving DecidableEq, Repr

/-- `BM25.__init__(k1=1.5, b=0.75)`. -/
def BM25.init : BM25 :=
  { k1 := 3/2, b := 3/4, doc_count := 0, avg_doc_len := 0, doc_freqs := [] }

/-- `set(doc.lower().split())` — the distinct lower-cased tokens of a
document (iteration order of a Python set does not affect any count or
membership below). -/
def termSet (doc : String) : List String := (splitWords (lowerStr doc)).dedup

/-- Dictionary lookup in `doc_freqs` (also the `term in idf_cache`
membership test, since the caches share their key set). -/
def dfLookup (m : List (String × ℕ)) (t : String) : Option ℕ :=
  (m.find? (fun p => p.1 == t)).map Prod.snd

/-- `BM25.fit(documents)`: sets `doc_count` and `avg_doc_len` from this
corpus, and *accumulates* document frequencies on top of any previous fit
(the Python code never resets `doc_freqs`). -/
def BM25.fit (bm : BM25) (documents : List String) : BM25 :=
  let doc_count := documents.length
  let total_len := (documents.map (fun d => (splitWords d).length)).sum
  let avg_doc_len := if 0 < doc_count then (total_len : ℚ) / (doc_count : ℚ) else 0
  let doc_freqs := documents.foldl (fun m doc => (termSet doc).foldl bump m) bm.doc_freqs
  { bm with doc_count := doc_count, avg_doc_len := avg_doc_len, doc_freqs := doc_freqs }

/-- `idf = math.log((doc_count - freq + 0.5) / (freq + 0.5) + 1)`. -/
noncomputable def BM25.idf (bm : BM25) (df : ℕ) : ℝ :=
  Real.log ((((bm.doc_count : ℝ) - (df : ℝ) + 1/2) / ((df : ℝ) + 1/2)) + 1)

/-- One term's contribution inside `BM25.score`: skipped when the term is
not in the cache; otherwise `idf * tf*(k1+1) / (tf + k1*(1 - b +
b*(doc_len/avg_doc_len)))` with `tf` the term's count in the document. -/
noncomputable def BM25.termScore (bm : BM25) (doc_terms : List String) (term : String) : ℝ :=
  match dfLookup bm.doc_freqs term with
  | none => 0
  | some df =>
    let tf := doc_terms.count term
    let numerator := (tf : ℝ) * ((bm.k1 : ℝ) + 1)
    let denominator := (tf : ℝ)
      + (bm.k1 : ℝ) * (1 - (bm.b : ℝ)
          + (bm.b : ℝ) * ((doc_terms.length : ℝ) / ((bm.avg_doc_len : ℚ) : ℝ)))
    bm.idf df * (numerator / denominator)

/-- `BM25.score(query, document)`: sum the contributions of the query's
tokens (with multiplicity, as the Python loop does). -/
noncomputable def BM25.score (bm : BM25) (query document : String) : ℝ :=
  let query_terms := splitWords (lowerStr query)
  let doc_terms := splitWords (lowerStr document)
  (query_terms.map (bm.termScore doc_terms)).sum

/-! ### RAGLite -/

/-- State of the `RAGLite` object. -/
structure RAGLite where
  store : DB
  bm25 : BM25
  indexed_neurons : List Neuron

/-- The document built for a neuron: `f"{n.input_text} {n.output_text}"`. -/
def docText (n : Neuron) : String := n.input_text ++ " " ++ n.output_text

/-- `RAGLite.index_neurons(max_neurons=1000)`: snapshot the most recent
neurons and fit BM25 on their documents. -/
def index_neurons (rag : RAGLite) (max_neurons : ℕ) : RAGLite :=
  let ns := get_recent_neurons rag.store max_neurons
  { rag with indexed_neurons := ns, bm25 := rag.bm25.fit (ns.map docText) }

/-- The boosted per-neuron retrieval score of `RAGLite.retrieve`:
`score *= 1.2` when confidence > 0.7, `score *= 1.3` when feedback > 0. -/
noncomputable def boosted_score (bm : BM25) (n : Neuron) (query : String) : ℝ :=
  let s := bm.score query (docText n)
  let s := if (7:ℚ)/10 < n.confidence then s * 1.2 else s
  let s := if 0 < n.user_feedback then s * 1.3 else s
  s

/-- Python `list.sort(key=score, reverse=True)` is a stable descending
sort. -/
noncomputable def byScoreDesc (a b : Neuron × ℝ) : Bool := decide (b.2 ≤ a.2)

/-- `RAGLite.retrieve(query, top_k)`: re-index on demand when no snapshot
exists, score every indexed neuron, sort descending, truncate. -/
noncomputable def retrieve (rag : RAGLite) (query : String) (top_k : ℕ) :
    List (Neuron × ℝ) × RAGLite :=
  let rag := if rag.indexed_neurons.isEmpty then index_neurons rag 1000 else rag
  let results := rag.indexed_neurons.map (fun n => (n, boosted_score rag.bm25 n query))
  ((results.mergeSort byScoreDesc).take top_k, rag)

/-- The concrete corpus for C3's witness: two indexed neurons, one about
turning a LED on, one about the temperature. -/
def c3n1 : Neuron :=
  { id := some 1, input_text := "accendi il led", idea := none,
    output_text := "ok attivo il led", mood := "neutral", confidence := 9/10,
    skill_id := none, context_hash := "h1", timestamp := 1, user_feedback := 1 }

def c3n2 : Neuron :=
  { id := some 2, input_text := "che temperatura fa", idea := none,
    output_text := "fa freddo oggi", mood := "neutral", confidence := 1/2,
    skill_id := none, context_hash := "h2", timestamp := 2, user_feedback := 0 }

def c3Docs : List String := [docText c3n1, docText c3n2]

/-! ### Prompt-context formatting (`get_context_for_prompt`) -/

/-- Rounding used by Python float formatting (`f"{x:.2f}"`): nearest
integer, ties to even (idealised over `ℚ`, consistent with the float
modelling above). -/
def round_half_even (x : ℚ) : ℤ :=
  let f := ⌊x⌋
  let r := x - f
  if r < 1/2 then f
  else if 1/2 < r then f + 1
  else if Even f then f else f + 1

/-- `f"{x:.2f}"`. -/
def fmt2 (x : ℚ) : String :=
  let c := round_half_even (x * 100)
  let sign := if c < 0 then "-" else ""
  let a := c.natAbs
  let frac := a % 100
  let fracStr := if frac < 10 then "0" ++ toString frac else toString frac
  sign ++ toString (a / 100) ++ "." ++ fracStr

/-- One context block of `get_context_for_prompt`:
`f"- Input: {input[:100]}\n  Output: {output[:150]}\n  (confidenza: {confidence:.2f})"`. -/
def format_block (n : Neuron) : String :=
  "- Input: " ++ n.input_text.take 100 ++ "\n"
    ++ "  Output: " ++ n.output_text.take 150 ++ "\n"
    ++ "  (confidenza: " ++ fmt2 n.confidence ++ ")"

/-- The block-appending loop of `get_context_for_prompt`: estimate
`len(output)/4` tokens per result and stop (`break`) as soon as the
running estimate would exceed the budget. -/
def context_loop : List (Neuron × ℝ) → ℚ → ℚ → List String → List String
  | [], _, _, parts => parts
  | (n, _) :: rest, current_tokens, max_context_tokens, parts =>
    let estimated := (n.output_text.length : ℚ) / 4
    if max_context_tokens < current_tokens + estimated then parts
    else context_loop rest (current_tokens + estimated) max_context_tokens
      (parts ++ [format_block n])

/-- `RAGLite.get_context_for_prompt(query, max_context_tokens=300)`:
retrieve the top 3; if there is no result or the best score is below 0.5,
return `""`; otherwise build the header plus blocks, and return `""` again
if only the header survived. -/
noncomputable def get_context_for_prompt (rag : RAGLite) (query : String)
    (max_context_tokens : ℚ) : String :=
  match (retrieve rag query 3).1 with
  | [] => ""
  | (n0, s0) :: rest =>
    if s0 < 1/2 then ""
    else
      let parts := context_loop ((n0, s0) :: rest) 0 max_context_tokens
        ["### Esperienze passate rilevanti:"]
      if parts.length = 1 then ""
      else String.intercalate "\n" parts ++ "\n\n"

/-- The `RAGLite` object over an empty store with no snapshot. -/
def emptyRAG : RAGLite := { store := emptyDB, bm25 := BM25.init, indexed_neurons := [] }

/-! # Theorems

The claims C1..C10 and their supporting lemmas. -/

/-! ### Helper lemmas about the store -/

theorem find?_append_of_none {α : Type} (p : α → Bool) (l₁ l₂ : List α)
    (h : ∀ a ∈ l₁, p a = false) :
    List.find? p (l₁ ++ l₂) = List.find? p l₂ := by
  have h1 : List.find? p l₁ = none := by
    rw [List.find?_eq_none]
    intro a ha
    simp [h a ha]
  rw [List.find?_append, h1, Option.none_or]

/-! ## Claim C1 — confidence clamping before persistence -/

/-- C1, counterexample.  The claim says every confidence persisted by
`save_neuron` lies in `[0, 1]` (out-of-range values being clamped or
rejected).  But `save_neuron` inserts the caller-supplied value unchanged:
saving a neuron with confidence `3/2` into a fresh store leaves a stored row
whose confidence is greater than 1. -/
theorem C1_counterexample :
    ∃ r ∈ (save_neuron emptyDB c1Neuron).2.rows, ¬ (r.confidence ≤ 1) := by
  refine ⟨{ id := 1, input_text := "test input", idea := none,
            output_text := "test output", mood := "neutral",
            confidence := 3/2, user_feedback := 0,
            context_hash := "00000000", skill_id := none, timestamp := 0 }, ?_, ?_⟩
  · simp [save_neuron, emptyDB, c1Neuron]
  · norm_num

/-- C1, amended: `save_neuron` performs no clamping and no validation; the
stored confidence column is exactly the neuron's `confidence` field, so the
list of stored confidences after a save is the old list with the
caller-supplied value appended, whatever that value is. -/
theorem C1_amended (db : DB) (n : Neuron) :
    ((save_neuron db n).2.rows.map NeuronRow.confidence)
      = db.rows.map NeuronRow.confidence ++ [n.confidence] := by
  simp [save_neuron]

/-! ## Claim C5 — prune deletes exactly the old/low-confidence/non-positive rows -/

/-- C5.  `prune_old_neurons keep_days min_confidence` deletes exactly the
rows that are older than `keep_days`, have confidence strictly below
`min_confidence` and have `user_feedback ≤ 0`; it returns the number of
deleted rows; every other row — in particular every row with positive
`user_feedback` — remains stored. -/
theorem C5_prune_exact (db : DB) (keep_days : ℤ) (mc : ℚ) :
    (prune_old_neurons db keep_days mc).2.rows
        = db.rows.filter (fun r => ¬ prune_cond db.now keep_days mc r)
    ∧ (prune_old_neurons db keep_days mc).1
        = (db.rows.filter (fun r => prune_cond db.now keep_days mc r)).length
    ∧ (∀ r ∈ db.rows, 0 < r.user_feedback →
        r ∈ (prune_old_neurons db keep_days mc).2.rows) := by
  refine ⟨rfl, rfl, ?_⟩
  intro r hr hpos
  simp only [prune_old_neurons, List.mem_filter]
  refine ⟨hr, ?_⟩
  simp only [decide_eq_true_eq]
  intro hcond
  exact absurd hcond.2.2 (by omega)

theorem C5_prune_exact_witness :
    (prune_old_neurons c5DB 30 (3/10)).2.rows = [c5Row1]
    ∧ (prune_old_neurons c5DB 30 (3/10)).1 = 1
    ∧ c5Row1 ∈ (prune_old_neurons c5DB 30 (3/10)).2.rows := by
  refine ⟨?_, ?_, ?_⟩
  · with_unfolding_all rfl
  · with_unfolding_all rfl
  · exact (C5_prune_exact c5DB 30 (3/10)).2.2 c5Row1 (by simp [c5DB]) (by norm_num [c5Row1])

/-! ## Claim C6 — save/get round-trip -/

/-- C6.  Saving a neuron and reading back the returned id yields a neuron
with identical `input_text`, `output_text` and `confidence`.  The hypothesis
is the `AUTOINCREMENT` invariant: every id already in the table is below the
counter. -/
theorem C6_save_get_roundtrip (db : DB) (n : Neuron)
    (hinv : ∀ r ∈ db.rows, r.id < db.nextId) :
    ∃ m : Neuron,
      get_neuron (save_neuron db n).2 (save_neuron db n).1 = some m
      ∧ m.input_text = n.input_text
      ∧ m.output_text = n.output_text
      ∧ m.confidence = n.confidence := by
  refine ⟨row_to_neuron
    { id := db.nextId, input_text := n.input_text, idea := n.idea,
      output_text := n.output_text, mood := n.mood, confidence := n.confidence,
      user_feedback := n.user_feedback, context_hash := n.context_hash,
      skill_id := n.skill_id, timestamp := db.now }, ?_, rfl, rfl, rfl⟩
  unfold get_neuron save_neuron
  simp only
  rw [find?_append_of_none]
  · simp [List.find?]
  · intro r hr
    have := hinv r hr
    simp only [beq_eq_false_iff_ne, ne_eq]
    omega

/-- C6, witness: round-trip through a fresh store. -/
theorem C6_save_get_roundtrip_witness :
    ∃ m : Neuron,
      get_neuron (save_neuron emptyDB c1Neuron).2 (save_neuron emptyDB c1Neuron).1 = some m
      ∧ m.input_text = c1Neuron.input_text
      ∧ m.output_text = c1Neuron.output_text
      ∧ m.confidence = c1Neuron.confidence :=
  C6_save_get_roundtrip emptyDB c1Neuron (by intro r hr; simp [emptyDB] at hr)

set_option maxRecDepth 100000 in
/-! ## Claim C9 — score of the concrete Italian sentence -/

/-- C9.  `score` on the sentence, with no context, returns a confidence of
at least 0.6.  (The text is 55 characters long, so the "detailed response"
+0.1 bonus fires; no pattern of either list matches — in particular the
Italian word "certamente" is not among the certainty patterns, which list
"sicuramente" etc. — so the result is exactly 0.5 + 0.1 = 0.6.) -/
theorem C9_certainty_score : (3/5 : ℚ) ≤ (score c9Text none).1 :=
  of_decide_eq_true (by with_unfolding_all rfl)

/-! ### Helper lemmas about the rule-saving loop -/

theorem save_fold_mono (rules : List Rule) :
    ∀ (table : List Rule) (saved : ℕ) (x : Rule), x ∈ table →
      x ∈ (save_rules_fold table saved rules).1 := by
  induction rules with
  | nil => intro table saved x hx; simpa [save_rules_fold] using hx
  | cons r rest ih =>
    intro table saved x hx
    by_cases h : (table.find? (fun ex => ex.rule_text == r.rule_text)).isSome
    · simpa [save_rules_fold, h] using ih table saved x hx
    · have := ih (table ++ [r]) (saved + 1) x (List.mem_append_left _ hx)
      simpa [save_rules_fold, h] using this

theorem save_fold_texts (rules : List Rule) :
    ∀ (table : List Rule) (saved : ℕ), ∀ r ∈ rules,
      ∃ ex ∈ (save_rules_fold table saved rules).1, ex.rule_text = r.rule_text := by
  induction rules with
  | nil => simp
  | cons r rest ih =>
    intro table saved r' hr'
    by_cases h : (table.find? (fun ex => ex.rule_text == r.rule_text)).isSome
    · rcases List.mem_cons.mp hr' with rfl | hmem
      · obtain ⟨ex, hex, heq⟩ := List.find?_isSome.mp h
        refine ⟨ex, ?_, by simpa using heq⟩
        have := save_fold_mono rest table saved ex hex
        simpa [save_rules_fold, h] using this
      · have := ih table saved r' hmem
        simpa [save_rules_fold, h] using this
    · rcases List.mem_cons.mp hr' with rfl | hmem
      · have hmem2 : r' ∈ table ++ [r'] := by simp
        have := save_fold_mono rest (table ++ [r']) (saved + 1) r' hmem2
        exact ⟨r', by simpa [save_rules_fold, h] using this, rfl⟩
      · have := ih (table ++ [r]) (saved + 1) r' hmem
        simpa [save_rules_fold, h] using this

theorem save_fold_noop (rules : List Rule) :
    ∀ (table : List Rule) (saved : ℕ),
      (∀ r ∈ rules, ∃ ex ∈ table, ex.rule_text = r.rule_text) →
      save_rules_fold table saved rules = (table, saved) := by
  induction rules with
  | nil => intro table saved _; rfl
  | cons r rest ih =>
    intro table saved hall
    have h : (table.find? (fun ex => ex.rule_text == r.rule_text)).isSome := by
      obtain ⟨ex, hex, heq⟩ := hall r (by simp)
      exact List.find?_isSome.mpr ⟨ex, hex, by simp [heq]⟩
    have := ih table saved (fun r' hr' => hall r' (by simp [hr']))
    simpa [save_rules_fold, h] using this

/-! ## Claim C7 — second generate+save run inserts nothing -/

/-- C7.  On an unchanged neuron population, running `generate_rules`
followed by `save_rules_to_db` a second time inserts nothing: every
generated rule's `rule_text` is already in the `rules` table after the
first save, so the second save returns 0.  (`generate_rules` reads only the
`neurons` table, which the first save does not modify, so the second run
generates the same list.) -/
theorem C7_second_save_inserts_nothing (db : DB) (mo : ℕ) :
    (save_rules_to_db (save_rules_to_db db (generate_rules db mo)).1
        (generate_rules (save_rules_to_db db (generate_rules db mo)).1 mo)).2 = 0 := by
  have hsame : generate_rules (save_rules_to_db db (generate_rules db mo)).1 mo
      = generate_rules db mo := rfl
  rw [hsame]
  show (save_rules_fold (save_rules_fold db.rules 0 (generate_rules db mo)).1 0
      (generate_rules db mo)).2 = 0
  rw [save_fold_noop (generate_rules db mo)
        (save_rules_fold db.rules 0 (generate_rules db mo)).1 0
        (save_fold_texts (generate_rules db mo) db.rules 0)]

/-! ## Claim C8 — auto_evolve short-circuits below min_neurons -/

/-- C8.  When the stored neuron count is strictly below `min_neurons`,
`auto_evolve` returns `rules_generated = 0`, `rules_saved = 0` and the
explanatory message, and leaves the database (in particular the `rules`
table) unchanged. -/
theorem C8_auto_evolve_short_circuit (db : DB) (m : ℕ) (h : stats_neurons db < m) :
    (auto_evolve db m).1.rules_generated = 0
    ∧ (auto_evolve db m).1.rules_saved = 0
    ∧ (auto_evolve db m).2 = db
    ∧ (auto_evolve db m).1.message
        = "Not enough neurons (" ++ toString (stats_neurons db) ++ " < "
            ++ toString m ++ ")" := by
  simp [auto_evolve, h]

/-- C8, witness: `auto_evolve(min_neurons=50)` on an empty store. -/
theorem C8_auto_evolve_short_circuit_witness :
    stats_neurons emptyDB < 50
    ∧ ((auto_evolve emptyDB 50).1.rules_generated = 0
       ∧ (auto_evolve emptyDB 50).1.rules_saved = 0
       ∧ (auto_evolve emptyDB 50).2 = emptyDB
       ∧ (auto_evolve emptyDB 50).1.message
          = "Not enough neurons (" ++ toString (stats_neurons emptyDB) ++ " < "
              ++ toString (50 : ℕ) ++ ")") :=
  ⟨of_decide_eq_true (by with_unfolding_all rfl),
   C8_auto_evolve_short_circuit emptyDB 50 (of_decide_eq_true (by with_unfolding_all rfl))⟩

/-! ## Claim C2 — negative-feedback avoid-word rules -/

theorem mem_foldl_emitAvoid (l : List (String × ℕ)) :
    ∀ (acc : List Rule) (r : Rule),
      r ∈ l.foldl emitAvoid acc
        ↔ r ∈ acc ∨ ∃ wc ∈ l, (3 ≤ wc.2 ∧ 3 < wc.1.length) ∧ r = avoid_rule wc.1 := by
  induction l with
  | nil => simp
  | cons wc rest ih =>
    intro acc r
    simp only [List.foldl_cons]
    rw [ih]
    unfold emitAvoid
    by_cases h : 3 ≤ wc.2 ∧ 3 < wc.1.length
    · simp only [if_pos h, List.mem_append, List.mem_singleton, List.mem_cons,
        List.not_mem_nil, or_false]
      constructor
      · rintro ((hr | rfl) | ⟨wc2, hwc2, hcond, rfl⟩)
        · exact Or.inl hr
        · exact Or.inr ⟨wc, Or.inl rfl, h, rfl⟩
        · exact Or.inr ⟨wc2, Or.inr hwc2, hcond, rfl⟩
      · rintro (hr | ⟨wc2, (rfl | hwc2), hcond, rfl⟩)
        · exact Or.inl (Or.inl hr)
        · exact Or.inl (Or.inr rfl)
        · exact Or.inr ⟨wc2, hwc2, hcond, rfl⟩
    · simp only [if_neg h, List.mem_cons]
      constructor
      · rintro (hr | ⟨wc2, hwc2, hcond, rfl⟩)
        · exact Or.inl hr
        · exact Or.inr ⟨wc2, Or.inr hwc2, hcond, rfl⟩
      · rintro (hr | ⟨wc2, (rfl | hwc2), hcond, rfl⟩)
        · exact Or.inl hr
        · exact absurd hcond h
        · exact Or.inr ⟨wc2, hwc2, hcond, rfl⟩

/-- C2, counterexample.  The claim restricts avoid-word rules to words
longer than 4 characters (and rule text "avoid word W").  On a population
of 3 negative-feedback neurons whose outputs are "wifi down",
`generate_rules` emits a rule triggered on the 4-character word "wifi"
(with rule text `Avoid using 'wifi' in responses (negative feedback
pattern)`), so the claim's length restriction is false on the code. -/
theorem C2_counterexample :
    ¬ (∀ r ∈ generate_rules c2DB 3, ∀ w : String,
        r.trigger_pattern = "avoid_word:" ++ w → 4 < w.length) := by
  intro hcl
  have hgen : generate_rules c2DB 3 = [avoid_rule "wifi", avoid_rule "down"] := by
    with_unfolding_all rfl
  have hmem : avoid_rule "wifi" ∈ generate_rules c2DB 3 := by
    rw [hgen]; simp
  have := hcl (avoid_rule "wifi") hmem "wifi" rfl
  exact absurd this (by decide)

/-- C2, amended.  When at least 3 of the last 100 neurons have
`user_feedback < 0`, word frequency is counted across all whitespace
tokens of those neurons' (lower-cased) output texts, and the avoid-word
rules emitted are exactly the top-5 counted words with count ≥ 3 **and
length > 3** characters, each yielding rule text
`Avoid using 'W' in responses (negative feedback pattern)`,
`trigger_pattern = "avoid_word:W"`, `confidence_threshold = 0.3`,
`priority = 3`; all of these rules appear in the `generate_rules` output. -/
theorem C2_amended_negative_rules (db : DB) (h : 3 ≤ (negative_neurons db).length) :
    (∀ r ∈ negative_feedback_rules db,
      ∃ wc ∈ mostCommon (neg_word_counter db) 5,
        3 ≤ wc.2 ∧ 3 < wc.1.length
        ∧ r.rule_text = "Avoid using " ++ apos ++ wc.1 ++ apos
            ++ " in responses (negative feedback pattern)"
        ∧ r.trigger_pattern = "avoid_word:" ++ wc.1
        ∧ r.confidence_threshold = 3/10 ∧ r.priority = 3)
    ∧ (∀ wc ∈ mostCommon (neg_word_counter db) 5, 3 ≤ wc.2 → 3 < wc.1.length →
        avoid_rule wc.1 ∈ negative_feedback_rules db)
    ∧ (∀ r ∈ negative_feedback_rules db, r ∈ generate_rules db 3) := by
  have hrules : negative_feedback_rules db
      = (mostCommon (neg_word_counter db) 5).foldl emitAvoid [] := by
    unfold negative_feedback_rules
    rw [if_pos h]
  refine ⟨?_, ?_, ?_⟩
  · intro r hr
    rw [hrules] at hr
    obtain ⟨wc, hwc, hcond, rfl⟩ :=
      ((mem_foldl_emitAvoid (mostCommon (neg_word_counter db) 5) [] r).mp hr).resolve_left
        (by simp)
    exact ⟨wc, hwc, hcond.1, hcond.2, rfl, rfl, rfl, rfl⟩
  · intro wc hwc h3 hlen
    rw [hrules]
    exact (mem_foldl_emitAvoid _ [] _).mpr (Or.inr ⟨wc, hwc, ⟨h3, hlen⟩, rfl⟩)
  · intro r hr
    unfold generate_rules
    simp only [List.mem_append]
    exact Or.inl (Or.inl (Or.inr hr))

/-- C2, amended, witness: the "wifi down" population satisfies the
hypothesis, and the amended characterization holds there. -/
theorem C2_amended_negative_rules_witness :
    3 ≤ (negative_neurons c2DB).length
    ∧ (∀ r ∈ negative_feedback_rules c2DB,
        ∃ wc ∈ mostCommon (neg_word_counter c2DB) 5,
          3 ≤ wc.2 ∧ 3 < wc.1.length
          ∧ r.rule_text = "Avoid using " ++ apos ++ wc.1 ++ apos
              ++ " in responses (negative feedback pattern)"
          ∧ r.trigger_pattern = "avoid_word:" ++ wc.1
          ∧ r.confidence_threshold = 3/10 ∧ r.priority = 3)
      ∧ (∀ wc ∈ mostCommon (neg_word_counter c2DB) 5, 3 ≤ wc.2 → 3 < wc.1.length →
          avoid_rule wc.1 ∈ negative_feedback_rules c2DB)
      ∧ (∀ r ∈ negative_feedback_rules c2DB, r ∈ generate_rules c2DB 3) :=
  ⟨of_decide_eq_true (by with_unfolding_all rfl),
   C2_amended_negative_rules c2DB (of_decide_eq_true (by with_unfolding_all rfl))⟩

/-! ### Tokenisation lemmas: lower-casing preserves word structure -/

theorem not_ws_of_gt {c : Char} (h : 64 < c.toNat) : c.isWhitespace = false := by
  simp only [Char.isWhitespace, Bool.or_eq_false_iff]
  refine ⟨⟨⟨?_, ?_⟩, ?_⟩, ?_⟩ <;>
  · apply decide_eq_false
    intro heq
    subst heq
    exact absurd h (by decide)

theorem ws_toLower (c : Char) : (Char.toLower c).isWhitespace = c.isWhitespace := by
  unfold Char.toLower
  by_cases h : c.toNat ≥ 65 ∧ c.toNat ≤ 90
  · rw [if_pos h]
    have hvalid : (c.toNat + 32).isValidChar := Or.inl (by omega)
    have hval : (Char.ofNat (c.toNat + 32)).toNat = c.toNat + 32 := by
      rw [Char.ofNat, dif_pos hvalid]
      rfl
    rw [not_ws_of_gt (by omega), not_ws_of_gt (by omega)]
  · rw [if_neg h]

theorem wordsOf_map_toLower :
    ∀ (fuel : ℕ) (cs : List Char), cs.length ≤ fuel →
      wordsOf (cs.map Char.toLower) = (wordsOf cs).map (List.map Char.toLower) := by
  intro fuel
  induction fuel with
  | zero =>
    intro cs h
    have : cs = [] := List.length_eq_zero.mp (Nat.le_zero.mp h)
    subst this
    simp [wordsOf]
  | succ n ih =>
    intro cs hlen
    match cs with
    | [] => simp [wordsOf]
    | c :: cs' =>
      rw [List.map_cons]
      by_cases hws : c.isWhitespace
      · have h1 : (Char.toLower c).isWhitespace = true := by rw [ws_toLower]; exact hws
        rw [wordsOf, wordsOf]
        simp only [h1, hws, if_true]
        exact ih cs' (Nat.le_of_succ_le_succ (by simpa using hlen))
      · have h1 : (Char.toLower c).isWhitespace = false := by
          rw [ws_toLower]; exact Bool.eq_false_iff.mpr hws
        rw [wordsOf, wordsOf]
        simp only [h1, hws, if_false, Bool.false_eq_true]
        have hpred : ((fun x => !x.isWhitespace) ∘ Char.toLower)
            = (fun x : Char => !x.isWhitespace) := by
          funext x
          simp [Function.comp, ws_toLower]
        rw [List.takeWhile_map, List.dropWhile_map, hpred]
        rw [ih (cs'.dropWhile (fun x => !x.isWhitespace))
              (Nat.le_trans ((List.dropWhile_suffix _).sublist.length_le)
                (Nat.le_of_succ_le_succ (by simpa using hlen)))]
        simp

theorem splitWords_lowerStr_ne_nil {s : String} (h : splitWords (lowerStr s) ≠ []) :
    splitWords s ≠ [] := by
  intro hnil
  apply h
  have hw : wordsOf s.data = [] := by
    simpa [splitWords] using hnil
  simp [splitWords, lowerStr, wordsOf_map_toLower s.data.length s.data (Nat.le_refl _), hw]

/-! ### Document-frequency dictionary lemmas -/

theorem dfLookup_cons (s : String) (c : ℕ) (rest : List (String × ℕ)) (u : String) :
    dfLookup ((s, c) :: rest) u = if s = u then some c else dfLookup rest u := by
  by_cases h : s = u
  · have hb : (s == u) = true := beq_iff_eq.mpr h
    simp [dfLookup, List.find?, hb, h]
  · have hb : (s == u) = false := beq_eq_false_iff_ne.mpr h
    simp [dfLookup, List.find?, hb, h]

theorem dfLookup_bump (m : List (String × ℕ)) (t u : String) :
    dfLookup (bump m t) u =
      if u = t then some ((dfLookup m t).getD 0 + 1) else dfLookup m u := by
  induction m with
  | nil =>
    by_cases h : u = t
    · subst h
      show dfLookup [(u, 1)] u = _
      rw [dfLookup_cons, if_pos rfl, if_pos rfl]
      simp [dfLookup]
    · show dfLookup [(t, 1)] u = _
      rw [dfLookup_cons, if_neg (fun hh => h hh.symm), if_neg h]
  | cons hd tl ih =>
    obtain ⟨s, c⟩ := hd
    rw [bump]
    by_cases hst : s = t
    · subst hst
      rw [if_pos rfl]
      simp only [dfLookup_cons]
      by_cases hu : u = s
      · subst hu
        simp
      · simp [hu, Ne.symm hu]
    · rw [if_neg hst]
      simp only [dfLookup_cons, ih]
      by_cases hsu : s = u
      · have hut : ¬ u = t := fun hh => hst (hsu.trans hh)
        simp [hsu, hut]
      · by_cases hut : u = t
        · simp [hsu, hut, hst]
        · simp [hsu, hut]

theorem dfLookup_counterFold (ts : List String) :
    ∀ (m : List (String × ℕ)) (u : String),
      (dfLookup (ts.foldl bump m) u).getD 0 = (dfLookup m u).getD 0 + ts.count u
      ∧ ((dfLookup (ts.foldl bump m) u).isSome ↔ u ∈ ts ∨ (dfLookup m u).isSome) := by
  induction ts with
  | nil => simp
  | cons t ts ih =>
    intro m u
    rw [List.foldl_cons]
    obtain ⟨ihc, ihs⟩ := ih (bump m t) u
    constructor
    · rw [ihc, dfLookup_bump]
      by_cases hu : u = t
      · subst hu
        simp [List.count_cons_self]
        omega
      · simp [hu, List.count_cons_of_ne hu]
    · rw [ihs, dfLookup_bump]
      by_cases hu : u = t
      · subst hu
        simp
      · simp [hu, List.mem_cons]

theorem dfLookup_fit (docs : List String) :
    ∀ (m : List (String × ℕ)) (u : String),
      (dfLookup (docs.foldl (fun m doc => (termSet doc).foldl bump m) m) u).getD 0
        = (dfLookup m u).getD 0 + docs.countP (fun d => decide (u ∈ termSet d))
      ∧ ((dfLookup (docs.foldl (fun m doc => (termSet doc).foldl bump m) m) u).isSome
          ↔ (∃ d ∈ docs, u ∈ termSet d) ∨ (dfLookup m u).isSome) := by
  induction docs with
  | nil => simp
  | cons d docs ih =>
    intro m u
    rw [List.foldl_cons]
    obtain ⟨ihc, ihs⟩ := ih ((termSet d).foldl bump m) u
    obtain ⟨bc, bs⟩ := dfLookup_counterFold (termSet d) m u
    constructor
    · rw [ihc, bc, List.countP_cons]
      have hcnt : (termSet d).count u = if u ∈ termSet d then 1 else 0 := by
        simp only [termSet, List.count_dedup, List.mem_dedup]
      rw [hcnt]
      by_cases hm : u ∈ termSet d <;> (simp [hm]; try omega)
    · rw [ihs, bs]
      constructor
      · rintro (⟨d2, hd2, ht2⟩ | (htd | hm))
        · exact Or.inl ⟨d2, List.mem_cons_of_mem _ hd2, ht2⟩
        · exact Or.inl ⟨d, List.mem_cons_self _ _, htd⟩
        · exact Or.inr hm
      · rintro (⟨d2, hd2, ht2⟩ | hm)
        · rcases List.mem_cons.mp hd2 with rfl | hd3
          · exact Or.inr (Or.inl ht2)
          · exact Or.inl ⟨d2, hd3, ht2⟩
        · exact Or.inr (Or.inr hm)

/-! ### Fitted-corpus facts shared by the retrieval claims -/

theorem dfLookup_fit_init (docs : List String) (t : String) :
    ((dfLookup (BM25.init.fit docs).doc_freqs t).isSome ↔ ∃ d ∈ docs, t ∈ termSet d)
    ∧ (dfLookup (BM25.init.fit docs).doc_freqs t).getD 0
        = docs.countP (fun d => decide (t ∈ termSet d)) := by
  have h1 := (dfLookup_fit docs [] t).1
  have h2 := (dfLookup_fit docs [] t).2
  constructor
  · rw [show (BM25.init.fit docs).doc_freqs
        = docs.foldl (fun m doc => (termSet doc).foldl bump m) [] from rfl, h2]
    simp [dfLookup]
  · rw [show (BM25.init.fit docs).doc_freqs
        = docs.foldl (fun m doc => (termSet doc).foldl bump m) [] from rfl, h1]
    simp [dfLookup]

theorem fit_avg_pos {docs : List String} {t : String}
    (h : (dfLookup (BM25.init.fit docs).doc_freqs t).isSome) :
    (∃ d ∈ docs, splitWords d ≠ []) ∧ 0 < (BM25.init.fit docs).avg_doc_len := by
  have hex : ∃ d ∈ docs, t ∈ termSet d := (dfLookup_fit_init docs t).1.mp h
  obtain ⟨d, hd, htm⟩ := hex
  have hne : splitWords (lowerStr d) ≠ [] := by
    intro hnil
    rw [termSet, hnil] at htm
    simp at htm
  have hne2 : splitWords d ≠ [] := splitWords_lowerStr_ne_nil hne
  refine ⟨⟨d, hd, hne2⟩, ?_⟩
  have hlen : 0 < docs.length := List.length_pos.mpr (by rintro rfl; simp at hd)
  have htot : 0 < (docs.map (fun d => (splitWords d).length)).sum := by
    have h1 : 0 < (splitWords d).length := List.length_pos.mpr hne2
    calc 0 < (splitWords d).length := h1
      _ ≤ (docs.map (fun d => (splitWords d).length)).sum :=
        List.single_le_sum (fun x _ => Nat.zero_le x) _
          (List.mem_map_of_mem (fun d => (splitWords d).length) hd)
  simp only [BM25.fit]
  rw [if_pos hlen]
  exact div_pos (by exact_mod_cast htot) (by exact_mod_cast hlen)

/-! ## Claim C10 — retrieval totality and division safety -/

/-- C10.  (a) On a store with no neurons (and no snapshot), `retrieve`
returns the empty list for every query and every `top_k`.  (b) Lean/ℚ
division is total, so the `doc_len / avg_doc_len` expression in
`BM25.score` cannot fault; the code-level division-by-zero concern is
discharged by: whenever a term is present in the fitted cache, some
document has a non-empty token list, hence `avg_doc_len > 0`. -/
theorem C10_retrieve_total_and_division_safe :
    (∀ (rag : RAGLite) (query : String) (top_k : ℕ),
        rag.store.rows = [] → rag.indexed_neurons = [] →
        (retrieve rag query top_k).1 = [])
    ∧ (∀ (docs : List String) (t : String),
        (dfLookup (BM25.init.fit docs).doc_freqs t).isSome →
        (∃ d ∈ docs, splitWords d ≠ []) ∧ 0 < (BM25.init.fit docs).avg_doc_len) := by
  constructor
  · intro rag query top_k hrows hidx
    simp [retrieve, hidx, index_neurons, get_recent_neurons, hrows]
  · intro docs t h
    exact fit_avg_pos h

/-- C10, witness: part (a) applied to an empty store, part (b) applied to
the one-document corpus `["led on"]` and the cached term `"led"`. -/
theorem C10_retrieve_total_and_division_safe_witness :
    (retrieve { store := emptyDB, bm25 := BM25.init, indexed_neurons := [] } "led" 5).1 = []
    ∧ (dfLookup (BM25.init.fit ["led on"]).doc_freqs "led").isSome
    ∧ ((∃ d ∈ ["led on"], splitWords d ≠ [])
        ∧ 0 < (BM25.init.fit ["led on"]).avg_doc_len) :=
  ⟨C10_retrieve_total_and_division_safe.1
      { store := emptyDB, bm25 := BM25.init, indexed_neurons := [] } "led" 5 rfl rfl,
   of_decide_eq_true (by with_unfolding_all rfl),
   C10_retrieve_total_and_division_safe.2 ["led on"] "led"
      (of_decide_eq_true (by with_unfolding_all rfl))⟩

/-! ## Claim C3 — all-terms document ranks above none-terms document -/

theorem termScore_eq_zero_of_not_mem (bm : BM25) (doc_terms : List String) (t : String)
    (h : t ∉ doc_terms) : bm.termScore doc_terms t = 0 := by
  rcases hdf : dfLookup bm.doc_freqs t with _ | df
  · simp [BM25.termScore, hdf]
  · simp [BM25.termScore, hdf, List.count_eq_zero.mpr h]

theorem termScore_pos_of_mem (docs : List String) (doc_terms : List String) (t : String)
    (hmem_doc : t ∈ doc_terms)
    (hsome : (dfLookup (BM25.init.fit docs).doc_freqs t).isSome) :
    0 < (BM25.init.fit docs).termScore doc_terms t := by
  obtain ⟨df, hdf⟩ := Option.isSome_iff_exists.mp hsome
  have hdfval : df = docs.countP (fun d => decide (t ∈ termSet d)) := by
    have h2 := (dfLookup_fit_init docs t).2
    rw [hdf] at h2
    simpa using h2
  have hdfle : df ≤ docs.length := by
    rw [hdfval]
    exact List.countP_le_length _
  have havg : 0 < (BM25.init.fit docs).avg_doc_len := (fit_avg_pos hsome).2
  have hidf : 0 < (BM25.init.fit docs).idf df := by
    unfold BM25.idf
    apply Real.log_pos
    have hNval : (BM25.init.fit docs).doc_count = docs.length := rfl
    have hle : (df : ℝ) ≤ (docs.length : ℝ) := by exact_mod_cast hdfle
    have hnum : (0:ℝ) < ((BM25.init.fit docs).doc_count : ℝ) - (df : ℝ) + 1/2 := by
      rw [hNval]
      linarith
    have hden : (0:ℝ) < (df : ℝ) + 1/2 := by positivity
    have := div_pos hnum hden
    linarith
  have htf : 0 < doc_terms.count t := List.count_pos_iff.mpr hmem_doc
  have htfR : (0:ℝ) < (doc_terms.count t : ℝ) := by exact_mod_cast htf
  have hk1 : (BM25.init.fit docs).k1 = 3/2 := rfl
  have hb : (BM25.init.fit docs).b = 3/4 := rfl
  have havgR : (0:ℝ) < (((BM25.init.fit docs).avg_doc_len : ℚ) : ℝ) := by exact_mod_cast havg
  have hfrac : (0:ℝ) ≤ (doc_terms.length : ℝ) / (((BM25.init.fit docs).avg_doc_len : ℚ) : ℝ) :=
    div_nonneg (by positivity) (le_of_lt havgR)
  have hnum : (0:ℝ) < (doc_terms.count t : ℝ) * (((BM25.init.fit docs).k1 : ℚ) : ℝ) + (doc_terms.count t : ℝ) := by
    rw [hk1]
    push_cast
    nlinarith [htfR]
  have hden : (0:ℝ) < (doc_terms.count t : ℝ)
      + (((BM25.init.fit docs).k1 : ℚ) : ℝ) * (1 - (((BM25.init.fit docs).b : ℚ) : ℝ)
          + (((BM25.init.fit docs).b : ℚ) : ℝ)
            * ((doc_terms.length : ℝ) / (((BM25.init.fit docs).avg_doc_len : ℚ) : ℝ))) := by
    have hrest : (0:ℝ) ≤ (((BM25.init.fit docs).k1 : ℚ) : ℝ) * (1 - (((BM25.init.fit docs).b : ℚ) : ℝ)
          + (((BM25.init.fit docs).b : ℚ) : ℝ)
            * ((doc_terms.length : ℝ) / (((BM25.init.fit docs).avg_doc_len : ℚ) : ℝ))) := by
      rw [hk1, hb]
      push_cast
      nlinarith [hfrac]
    linarith
  simp only [BM25.termScore, hdf]
  apply mul_pos hidf
  apply div_pos
  · have : (0:ℝ) < (doc_terms.count t : ℝ) * ((((BM25.init.fit docs).k1 : ℚ) : ℝ) + 1) := by
      nlinarith [hnum]
    exact this
  · exact hden

/-- C3.  For a corpus fitted from `docs`, a neuron `n1` whose document is
in the corpus and whose (lower-cased, whitespace-tokenised) text contains
every token of a non-empty query scores strictly above a neuron `n2` whose
text contains none of the query's tokens: the boosted score of `n2` is 0
and the boosted score of `n1` is strictly positive.  Since
`RAGLite.retrieve` sorts by the boosted score in descending order, `n1` is
ranked strictly above `n2`. -/
theorem C3_all_terms_ranks_above_none (docs : List String) (query : String) (n1 n2 : Neuron)
    (hd1 : docText n1 ∈ docs)
    (hq : splitWords (lowerStr query) ≠ [])
    (hall : ∀ t ∈ splitWords (lowerStr query), t ∈ splitWords (lowerStr (docText n1)))
    (hnone : ∀ t ∈ splitWords (lowerStr query), t ∉ splitWords (lowerStr (docText n2))) :
    boosted_score (BM25.init.fit docs) n2 query = 0
    ∧ 0 < boosted_score (BM25.init.fit docs) n1 query
    ∧ boosted_score (BM25.init.fit docs) n2 query
        < boosted_score (BM25.init.fit docs) n1 query := by
  have hzero : (BM25.init.fit docs).score query (docText n2) = 0 := by
    unfold BM25.score
    apply List.sum_eq_zero
    intro x hx
    obtain ⟨t, ht, rfl⟩ := List.mem_map.mp hx
    exact termScore_eq_zero_of_not_mem _ _ _ (hnone t ht)
  have hpos : 0 < (BM25.init.fit docs).score query (docText n1) := by
    unfold BM25.score
    apply List.sum_pos
    · intro x hx
      obtain ⟨t, ht, rfl⟩ := List.mem_map.mp hx
      apply termScore_pos_of_mem docs _ t (hall t ht)
      apply (dfLookup_fit_init docs t).1.mpr
      exact ⟨docText n1, hd1, List.mem_dedup.mpr (hall t ht)⟩
    · simp only [ne_eq, List.map_eq_nil_iff]
      exact hq
  have hb2 : boosted_score (BM25.init.fit docs) n2 query = 0 := by
    simp [boosted_score, hzero]
  have hb1 : 0 < boosted_score (BM25.init.fit docs) n1 query := by
    simp only [boosted_score]
    split_ifs <;>
      first
        | exact hpos
        | exact mul_pos hpos (by norm_num)
        | exact mul_pos (mul_pos hpos (by norm_num)) (by norm_num)
  exact ⟨hb2, hb1, hb2 ▸ hb1⟩

/-- C3, witness: the query "LED" (upper-case, exercising the lower-casing)
against the two concrete documents. -/
theorem C3_all_terms_ranks_above_none_witness :
    (docText c3n1 ∈ c3Docs
     ∧ splitWords (lowerStr "LED") ≠ []
     ∧ (∀ t ∈ splitWords (lowerStr "LED"), t ∈ splitWords (lowerStr (docText c3n1)))
     ∧ (∀ t ∈ splitWords (lowerStr "LED"), t ∉ splitWords (lowerStr (docText c3n2))))
    ∧ (boosted_score (BM25.init.fit c3Docs) c3n2 "LED" = 0
       ∧ 0 < boosted_score (BM25.init.fit c3Docs) c3n1 "LED"
       ∧ boosted_score (BM25.init.fit c3Docs) c3n2 "LED"
           < boosted_score (BM25.init.fit c3Docs) c3n1 "LED") :=
  ⟨⟨of_decide_eq_true (by with_unfolding_all rfl),
    of_decide_eq_true (by with_unfolding_all rfl),
    of_decide_eq_true (by with_unfolding_all rfl),
    of_decide_eq_true (by with_unfolding_all rfl)⟩,
   C3_all_terms_ranks_above_none c3Docs "LED" c3n1 c3n2
     (of_decide_eq_true (by with_unfolding_all rfl))
     (of_decide_eq_true (by with_unfolding_all rfl))
     (of_decide_eq_true (by with_unfolding_all rfl))
     (of_decide_eq_true (by with_unfolding_all rfl))⟩

/-! ## Claim C4 — low best score yields empty context -/

/-- C4.  Whenever the best (top-1) boosted retrieval score for the query is
below 0.5 — vacuously including the no-result case — 
`get_context_for_prompt` returns the empty string. -/
theorem C4_low_best_score_empty_context (rag : RAGLite) (query : String) (maxTok : ℚ)
    (h : ∀ p ∈ ((retrieve rag query 3).1).head?, p.2 < 1/2) :
    get_context_for_prompt rag query maxTok = "" := by
  unfold get_context_for_prompt
  split
  next => rfl
  next n0 s0 rest heq =>
    have hs : s0 < 1/2 := h (n0, s0) (by rw [heq]; simp)
    rw [if_pos hs]

/-- C4, witness: on the empty store, retrieval returns no results, the
hypothesis holds vacuously, and the produced context is empty. -/
theorem C4_low_best_score_empty_context_witness :
    (∀ p ∈ ((retrieve emptyRAG "led" 3).1).head?, p.2 < 1/2)
    ∧ get_context_for_prompt emptyRAG "led" 300 = "" := by
  have hret : (retrieve emptyRAG "led" 3).1 = [] := by
    simp [retrieve, emptyRAG, index_neurons, get_recent_neurons, emptyDB]
  constructor
  · rw [hret]
    simp
  · exact C4_low_best_score_empty_context emptyRAG "led" 300 (by rw [hret]; simp)
